import Mathlib

/-!
Verification of the conversation-orchestration layer of the voice-to-code
repository: the YAML Extraction Engine, the Approval Detector, the Stream
Buffer accumulation in the agent message handler, the phase state machine, and
the generation session manager (start / cancel / stale sweep).

Text is modelled as `List Char`; JavaScript `String.prototype.includes`,
`match` against the four fixed extraction regexes, `split('\n')`, `trim`,
`toLowerCase` are embedded as executable functions below.  The process-wide
`activeGenerations` Map is modelled as an association list with unique keys;
`Map.get` / `Map.set` / `Map.delete` are `lookup` / `setKey` / `delKey`.
Filesystem cleanup (`cleanupSession`) and WebSocket emission are tracked as
flags / event lists on the outcome records.
-/

set_option maxRecDepth 10000

/-- Characters of a string literal (JS strings are modelled as `List Char`). -/
def chars (s : String) : List Char := s.data

/-- The single-quote character, used inside several approval phrases. -/
def aposChar : Char := Char.ofNat 39

/-- A phrase containing one apostrophe between the two parts. -/
def aposPh (a b : String) : List Char := chars a ++ [aposChar] ++ chars b

/-- JS `hay.includes(needle)` : substring test. -/
def containsSub (hay needle : List Char) : Bool :=
  match hay with
  | [] => needle.isEmpty
  | c :: t => needle.isPrefixOf (c :: t) || containsSub t needle

/-- Index of the first occurrence of `needle` in `hay`, if any
(leftmost-match semantics of a JS regex whose pattern starts with the
literal `needle`). -/
def findSub (hay needle : List Char) : Option Nat :=
  match hay with
  | [] => if needle.isEmpty then some 0 else none
  | c :: t =>
    if needle.isPrefixOf (c :: t) then some 0
    else (findSub t needle).map (· + 1)

/-- JS `text.split('\n')`. -/
def splitLines : List Char → List (List Char)
  | [] => [[]]
  | c :: t =>
    if c = '\n' then [] :: splitLines t
    else
      match splitLines t with
      | [] => [[c]]
      | l :: ls => (c :: l) :: ls

/-- JS `String.prototype.trim` (leading and trailing whitespace removed). -/
def trimWs (s : List Char) : List Char :=
  ((s.dropWhile Char.isWhitespace).reverse.dropWhile Char.isWhitespace).reverse

/-- JS `String.prototype.toLowerCase` (ASCII case folding). -/
def lowerL (s : List Char) : List Char := s.map Char.toLower

/-- JS truthiness of an optional string: present and non-empty. -/
def optTruthy : Option (List Char) → Bool
  | some s => !s.isEmpty
  | none => false

/-- One lazy fenced-pattern match: first occurrence of `openM`, then the
shortest span up to the first following occurrence of `closeM`; the capture
group is the span between them.  Embeds the first three regexes of
`extractYamlFromText`. -/
def matchBetween (text openM closeM : List Char) : Option (List Char) :=
  match findSub text openM with
  | none => none
  | some i =>
    let rest := text.drop (i + openM.length)
    match findSub rest closeM with
    | none => none
    | some j => some (rest.take j)

/-- The fourth regex `yaml\n([\s\S]*?)$` with the multiline flag: after the
first `"yaml\n"`, the lazy capture stops at the first end-of-line position. -/
def matchYamlTail (text : List Char) : Option (List Char) :=
  match findSub text (chars "yaml\n") with
  | none => none
  | some i => some ((text.drop (i + 5)).takeWhile (fun c => !(c == '\n')))

/-- The strict seven-key completeness check applied to a fenced candidate. -/
def hasAllSevenKeys (y : List Char) : Bool :=
  containsSub y (chars "project_name:") && containsSub y (chars "project_description:") &&
  containsSub y (chars "users:") && containsSub y (chars "goal:") &&
  containsSub y (chars "features:") && containsSub y (chars "tech_stack:") &&
  containsSub y (chars "ui_style:")

/-- The five-key guard of the fallback (no-code-block) scan in
`extractYamlFromText`. -/
def hasFallbackKeys (text : List Char) : Bool :=
  containsSub text (chars "project_name:") && containsSub text (chars "features:") &&
  containsSub text (chars "tech_stack:") && containsSub text (chars "users:") &&
  containsSub text (chars "goal:")

/-- Walk the pattern candidates in order: a match whose capture group is
truthy (non-empty) is trimmed and accepted iff it has all seven keys,
otherwise the next pattern is tried. -/
def firstComplete : List (Option (List Char)) → Option (List Char)
  | [] => none
  | none :: rest => firstComplete rest
  | some inner :: rest =>
    if inner.isEmpty then firstComplete rest
    else
      let y := trimWs inner
      if hasAllSevenKeys y then some y else firstComplete rest

/-- First index `≥ start` of a line satisfying `p`. -/
def findIdxFrom (lines : List (List Char)) (start : Nat) (p : List Char → Bool) : Option Nat :=
  match (lines.drop start).findIdx? p with
  | none => none
  | some k => some (start + k)

/-- The end-of-block test of the fallback scan's inner loop. -/
def isEndLine (l : List Char) : Bool :=
  (trimWs l).isEmpty || containsSub l (chars "How does that") || containsSub l (chars "```")

/-- The fallback scan of `extractYamlFromText`: guarded by five keys on the
whole text, it slices from the first `project_name:` line up to the first
blank / closing-phrase / fence line after the first `ui_style:` or
`tech_stack:` line. -/
def fallbackScan (text : List Char) : Option (List Char) :=
  if hasFallbackKeys text then
    let lines := splitLines text
    match lines.findIdx? (fun l => containsSub l (chars "project_name:")) with
    | none => none
    | some s =>
      match findIdxFrom lines s
          (fun l => containsSub l (chars "ui_style:") || containsSub l (chars "tech_stack:")) with
      | none => none
      | some i =>
        let e := (findIdxFrom lines i isEndLine).getD lines.length
        some (trimWs (List.intercalate (chars "\n") ((lines.drop s).take (e - s))))
  else none

/-- `extractYamlFromText` of the agent source: four prioritized patterns,
each requiring all seven keys on the trimmed capture, then the five-key
fallback scan.  `none` models the JS `null` return. -/
def extractYamlFromText (text : List Char) : Option (List Char) :=
  match firstComplete
      [ matchBetween text (chars "```yaml\n") (chars "\n```"),
        matchBetween text (chars "```yaml") (chars "```"),
        matchBetween text (chars "```\n") (chars "\n```"),
        matchYamlTail text ] with
  | some y => some y
  | none => fallbackScan text

/-- Extraction as consumed by the callers, which test the returned string for
JS truthiness (`if (yamlContent)`): an empty extracted string counts as no
extraction. -/
def extractTruthy (text : List Char) : Option (List Char) :=
  match extractYamlFromText text with
  | some y => if y.isEmpty then none else some y
  | none => none

/-- The fixed approval-phrase table of `detectYamlApproval`, in source order. -/
def approvalPhrases : List (List Char) :=
  [ chars "looks good", chars "that looks good", chars "yes", chars "perfect",
    chars "great", chars "awesome", chars "i like that", chars "that works",
    aposPh "let" "s build", aposPh "let" "s go", chars "ready", chars "is ready",
    aposPh "it" "s ready", chars "the prompt is ready", chars "prompt is ready",
    chars "approved", chars "correct", aposPh "that" "s right", chars "sounds good",
    chars "good to go", aposPh "let" "s do it", aposPh "let" "s start",
    chars "move on", chars "next step", chars "continue", chars "proceed" ]

/-- `detectYamlApproval`: lowercase, trim, then substring-match any phrase. -/
def detectYamlApproval (userMessage : List Char) : Bool :=
  let lowerMessage := trimWs (lowerL userMessage)
  approvalPhrases.any (fun p => containsSub lowerMessage p)

/-- The "topic has moved on" phrase table used to force-complete the YAML
buffer. -/
def movingOnPhrases : List (List Char) :=
  [ chars "would you like to edit", chars "is it ready", chars "starting code generation",
    chars "great!", chars "perfect!", chars "let me know",
    aposPh "you" "re welcome", aposPh "if you" "re ready" ]

/-- The moving-on test applied to an assistant fragment while accumulating. -/
def isMovingOn (content : List Char) : Bool :=
  movingOnPhrases.any (fun p => containsSub (lowerL content) p)

example : extractYamlFromText (chars "hello") = none := by decide

example :
    (extractYamlFromText (chars "```yaml\nproject_name: a\nproject_description: d\nusers: u\ngoal: g\nfeatures: f\ntech_stack: t\nui_style: s\n```")).isSome = true := by
  decide

example : detectYamlApproval (chars "  That looks GOOD ") = true := by decide
example : detectYamlApproval (chars "hmm maybe") = false := by decide

/-- Result record of `validateYamlPrompt`. -/
structure ValidationResult where
  isValid : Bool
  errors : List (List Char)
  processed : Option (List Char)
deriving DecidableEq, Repr

/-- `validateYamlPrompt`: three checked fields collect one error message each
when missing; a default `ui_style` line is appended when absent; `processed`
is returned only when there are no errors. -/
def validateYamlPrompt (yamlText : List Char) : ValidationResult :=
  let e1 := if containsSub yamlText (chars "project_name:") then []
            else [chars "Missing required field: project_name"]
  let e2 := if containsSub yamlText (chars "features:") then []
            else [chars "Missing required field: features"]
  let e3 := if containsSub yamlText (chars "tech_stack:") then []
            else [chars "Missing required field: tech_stack"]
  let errors := e1 ++ e2 ++ e3
  let processed := if containsSub yamlText (chars "ui_style:") then yamlText
                   else yamlText ++ chars "\nui_style: Clean and modern"
  { isValid := errors.isEmpty,
    errors := errors,
    processed := if errors.isEmpty then some processed else none }

/-- The status field of a generation session. -/
inductive Status
  | starting
  | generating
  | building
  | ready
  | error
  | cancelled
deriving DecidableEq, Repr

/-- A generation session as tracked in `activeGenerations` (the cancellation
function is modelled by its presence). -/
structure GenerationSession where
  status : Status
  startTime : Int
  yamlPrompt : Option (List Char) := none
  previewUrl : Option String := none
  repoPath : Option String := none
  hasCancelFn : Bool := false
deriving DecidableEq, Repr

/-- The `activeGenerations` Map, modelled as an association list whose keys
are unique (a JS Map never holds two entries for one key). -/
abbrev Registry := List (String × GenerationSession)

/-- `activeGenerations.get(sessionId)`. -/
def lookup : Registry → String → Option GenerationSession
  | [], _ => none
  | e :: t, sid => if e.1 == sid then some e.2 else lookup t sid

/-- `activeGenerations.set(sessionId, session)`. -/
def setKey : Registry → String → GenerationSession → Registry
  | [], sid, s => [(sid, s)]
  | e :: t, sid, s => if e.1 == sid then (sid, s) :: t else e :: setKey t sid s

/-- `activeGenerations.delete(sessionId)` (keys are unique, so removing every
entry with the key equals removing the one entry a Map can hold). -/
def delKey : Registry → String → Registry
  | [], _ => []
  | e :: t, sid => if e.1 == sid then delKey t sid else e :: delKey t sid

/-- Client-facing events emitted through `emitEvent` during a generation. -/
inductive Event
  | codegenStart
  | validationPassed
  | previewReady
  | codegenComplete
  | codegenError
  | codegenCancelled
deriving DecidableEq, Repr

/-- Behaviour of the external collaborator `runOpenAICodegen` for one call:
it either resolves with a preview URL and repository path (invoking the
preview-ready callback first), or rejects with an error message (invoking the
error callback first). -/
inductive CollabResult
  | ok (previewUrl repoPath : String)
  | err (msg : List Char)
deriving DecidableEq, Repr

/-- Observable outcome of one `startCodeGeneration` call. -/
structure StartOutcome where
  registry : Registry
  success : Bool
  previewUrl : Option String
  error : Option (List Char)
  events : List Event
  collaboratorInvoked : Bool
  cleanupCalled : Bool
  finalStatus : Option Status
deriving DecidableEq, Repr

/-- `startCodeGeneration`: register the session as `starting`, validate, and
either fail before invoking the collaborator, or invoke it and finish with
`ready` (session kept in the registry) or `error` (session cleaned up and
removed).  The JS try/catch is modelled by totality: every path returns an
outcome record, none throws. -/
def startCodeGeneration (reg : Registry) (yamlPrompt : List Char) (sid : String)
    (now : Int) (collab : CollabResult) : StartOutcome :=
  let session0 : GenerationSession :=
    { status := Status.starting, startTime := now, yamlPrompt := some yamlPrompt }
  let reg1 := setKey reg sid session0
  let validation := validateYamlPrompt yamlPrompt
  if !validation.isValid then
    { registry := delKey reg1 sid,
      success := false,
      previewUrl := none,
      error := some (chars "YAML validation failed: " ++
        List.intercalate (chars ", ") validation.errors),
      events := [Event.codegenStart, Event.codegenError],
      collaboratorInvoked := false,
      cleanupCalled := true,
      finalStatus := some Status.error }
  else
    match collab with
    | CollabResult.ok url repo =>
      { registry := setKey reg1 sid
          { session0 with status := Status.ready, previewUrl := some url,
                          repoPath := some repo },
        success := true,
        previewUrl := some url,
        error := none,
        events := [Event.codegenStart, Event.validationPassed,
                   Event.previewReady, Event.codegenComplete],
        collaboratorInvoked := true,
        cleanupCalled := false,
        finalStatus := some Status.ready }
    | CollabResult.err msg =>
      { registry := delKey reg1 sid,
        success := false,
        previewUrl := none,
        error := some msg,
        events := [Event.codegenStart, Event.validationPassed, Event.codegenError],
        collaboratorInvoked := true,
        cleanupCalled := true,
        finalStatus := some Status.error }

/-- Observable outcome of one `cancelCodeGeneration` call; `cleanupCalled`
records whether `cleanupSession(sessionId)` was invoked. -/
structure CancelOutcome where
  registry : Registry
  result : Bool
  cancelCalls : Nat
  finalSession : Option GenerationSession
  cleanupCalled : Bool
deriving DecidableEq, Repr

/-- `cancelCodeGeneration`: unknown session returns `false` with no effect; a
registered session gets status `cancelled`, its cancellation handle invoked
(at most once), per-session cleanup (`cleanupSession`), removal from the
registry, and `true`. -/
def cancelCodeGeneration (reg : Registry) (sid : String) : CancelOutcome :=
  match lookup reg sid with
  | none =>
    { registry := reg, result := false, cancelCalls := 0, finalSession := none,
      cleanupCalled := false }
  | some s =>
    { registry := delKey reg sid,
      result := true,
      cancelCalls := if s.hasCancelFn then 1 else 0,
      finalSession := some { s with status := Status.cancelled },
      cleanupCalled := true }

/-- The staleness test of `cleanupStaleGenerations`. -/
def staleB (now maxAgeMinutes : Int) (s : GenerationSession) : Bool :=
  decide (s.startTime < now - maxAgeMinutes * 60 * 1000) && !(s.status == Status.ready)

/-- `cleanupStaleGenerations`: one pass over the registry removing every
session that started before the cutoff and is not `ready`; returns the
surviving registry, the number removed, and the ids cleaned up. -/
def cleanupStaleGenerations (reg : Registry) (now maxAgeMinutes : Int) :
    Registry × Nat × List String :=
  match reg with
  | [] => ([], 0, [])
  | e :: t =>
    let r := cleanupStaleGenerations t now maxAgeMinutes
    if staleB now maxAgeMinutes e.2 then (r.1, r.2.1 + 1, e.1 :: r.2.2)
    else (e :: r.1, r.2.1, r.2.2)

/-- The conversation phase of `ConversationState`. -/
inductive Phase
  | ideation
  | prompt_review
  | transitioning
  | code_generation
deriving DecidableEq, Repr

/-- The per-connection `conversationState`. -/
structure ConversationState where
  phase : Phase
  lastYamlPrompt : Option (List Char) := none
  sessionId : Option String := none
  yamlBuffer : Option (List Char) := none
deriving DecidableEq, Repr

/-- Messages the relay sends to the browser while handling one
`ConversationText` event (audio and codegen events are tracked separately). -/
inductive BrowserMsg
  | userText
  | correctiveText
  | phaseTransition (sid : String)
deriving DecidableEq, Repr

/-- Outcome of processing one assistant `ConversationText` fragment:
the new state, the spec newly bound to `lastYamlPrompt` (if any), and the
candidate block fed to the Extraction Engine this step (if any). -/
structure AssistantStepResult where
  state : ConversationState
  extracted : Option (List Char)
  fedBlock : Option (List Char)
deriving DecidableEq, Repr

/-- The assistant branch of the agent message handler: start a buffer on a
fragment holding the open marker; on a close marker, join with a newline and
extract; while buffering, a moving-on phrase force-completes, otherwise the
fragment is appended; with no buffer the fragment itself is the candidate.
Every successful (truthy) extraction binds `lastYamlPrompt` and sets the
phase to `prompt_review`. -/
def handleAssistantMessage (st : ConversationState) (content : List Char) :
    AssistantStepResult :=
  if containsSub content (chars "```yaml") then
    { state := { st with yamlBuffer := some content }, extracted := none, fedBlock := none }
  else if optTruthy st.yamlBuffer && containsSub content (chars "```") then
    let buf := st.yamlBuffer.getD [] ++ chars "\n" ++ content
    match extractTruthy buf with
    | some y =>
      { state := { st with lastYamlPrompt := some y, phase := Phase.prompt_review,
                           yamlBuffer := none },
        extracted := some y, fedBlock := some buf }
    | none =>
      { state := { st with yamlBuffer := none }, extracted := none, fedBlock := some buf }
  else if optTruthy st.yamlBuffer then
    let buf := st.yamlBuffer.getD [] ++ chars "\n" ++ content
    if isMovingOn content then
      match extractTruthy buf with
      | some y =>
        { state := { st with lastYamlPrompt := some y, phase := Phase.prompt_review,
                             yamlBuffer := none },
          extracted := some y, fedBlock := some buf }
      | none =>
        { state := { st with yamlBuffer := none }, extracted := none, fedBlock := some buf }
    else
      { state := { st with yamlBuffer := some buf }, extracted := none, fedBlock := none }
  else
    match extractTruthy content with
    | some y =>
      { state := { st with lastYamlPrompt := some y, phase := Phase.prompt_review },
        extracted := some y, fedBlock := some content }
    | none =>
      { state := st, extracted := none, fedBlock := some content }

/-- Outcome of processing one user `ConversationText` utterance. -/
structure UserStepResult where
  state : ConversationState
  registry : Registry
  sent : List BrowserMsg
  started : Bool
  startOutcome : Option StartOutcome
deriving DecidableEq, Repr

/-- The user branch of the agent message handler: approval in
`prompt_review` with a truthy bound spec mints a fresh session id, announces
the transition, and runs `startCodeGeneration` (resetting to `ideation` and
clearing the spec and session id on failure); approval in `prompt_review` or
`ideation` without a captured spec surfaces the corrective system message and
changes nothing; everything else only echoes the user text. -/
def handleUserMessage (st : ConversationState) (content : List Char) (freshId : String)
    (reg : Registry) (now : Int) (collab : CollabResult) : UserStepResult :=
  if st.phase == Phase.prompt_review && optTruthy st.lastYamlPrompt &&
      detectYamlApproval content then
    let yaml := st.lastYamlPrompt.getD []
    let out := startCodeGeneration reg yaml freshId now collab
    if out.success then
      { state := { st with phase := Phase.code_generation, sessionId := some freshId },
        registry := out.registry,
        sent := [BrowserMsg.userText, BrowserMsg.phaseTransition freshId],
        started := true, startOutcome := some out }
    else
      { state := { st with phase := Phase.ideation, lastYamlPrompt := none,
                           sessionId := none },
        registry := out.registry,
        sent := [BrowserMsg.userText, BrowserMsg.phaseTransition freshId],
        started := true, startOutcome := some out }
  else if (st.phase == Phase.prompt_review || st.phase == Phase.ideation) &&
      detectYamlApproval content then
    { state := st, registry := reg,
      sent := [BrowserMsg.userText, BrowserMsg.correctiveText],
      started := false, startOutcome := none }
  else
    { state := st, registry := reg, sent := [BrowserMsg.userText],
      started := false, startOutcome := none }

/-- Reachability invariant of the conversation loop: in phases
`transitioning` and `code_generation` a truthy specification is always bound
(the transition is guarded by it and every failure path clears it while
resetting to `ideation`). -/
def ConvInv (st : ConversationState) : Prop :=
  (st.phase = Phase.transitioning ∨ st.phase = Phase.code_generation) →
    optTruthy st.lastYamlPrompt = true

theorem lookup_delKey_self (reg : Registry) (sid : String) :
    lookup (delKey reg sid) sid = none := by
  induction reg with
  | nil => rfl
  | cons e t ih =>
    by_cases h : e.1 == sid
    · simp [delKey, h, ih]
    · simp [delKey, lookup, h, ih]

theorem lookup_setKey_self (reg : Registry) (sid : String) (s : GenerationSession) :
    lookup (setKey reg sid s) sid = some s := by
  induction reg with
  | nil => simp [setKey, lookup]
  | cons e t ih =>
    by_cases h : e.1 == sid
    · simp [setKey, h, lookup]
    · simp [setKey, h, lookup, ih]

theorem firstComplete_keys (cs : List (Option (List Char))) (y : List Char)
    (h : firstComplete cs = some y) : hasAllSevenKeys y = true := by
  induction cs with
  | nil => exact absurd h (by simp [firstComplete])
  | cons c rest ih =>
    cases c with
    | none => exact ih (by simpa [firstComplete] using h)
    | some inner =>
      by_cases he : inner.isEmpty
      · exact ih (by simpa [firstComplete, he] using h)
      · by_cases hk : hasAllSevenKeys (trimWs inner)
        · have : trimWs inner = y := by simpa [firstComplete, he, hk] using h
          exact this ▸ hk
        · exact ih (by simpa [firstComplete, he, hk] using h)

theorem fallbackScan_guard (t y : List Char) (h : fallbackScan t = some y) :
    hasFallbackKeys t = true := by
  by_cases hg : hasFallbackKeys t
  · exact hg
  · exact absurd h (by simp [fallbackScan, hg])

theorem toLower_whitespace (c : Char) (h : c.isWhitespace = true) : c.toLower = c := by
  simp [Char.isWhitespace] at h
  rcases h with ((h | h) | h) | h <;> subst h <;> decide

theorem lowerL_append (a b : List Char) : lowerL (a ++ b) = lowerL a ++ lowerL b := by
  simp [lowerL]

theorem lowerL_allWhitespace (w : List Char) (hw : ∀ c ∈ w, c.isWhitespace = true) :
    ∀ c ∈ lowerL w, c.isWhitespace = true := by
  intro c hc
  simp only [lowerL, List.mem_map] at hc
  obtain ⟨d, hd, rfl⟩ := hc
  rw [toLower_whitespace d (hw d hd)]
  exact hw d hd

theorem dropWhile_ws_append (w x : List Char) (hw : ∀ c ∈ w, c.isWhitespace = true) :
    (w ++ x).dropWhile Char.isWhitespace = x.dropWhile Char.isWhitespace := by
  induction w with
  | nil => simp
  | cons c t ih =>
    have hc : c.isWhitespace = true := hw c (by simp)
    simp only [List.cons_append, List.dropWhile_cons, hc, if_true]
    exact ih (fun d hd => hw d (by simp [hd]))

theorem dropWhile_ws_all (w : List Char) (hw : ∀ c ∈ w, c.isWhitespace = true) :
    w.dropWhile Char.isWhitespace = [] := by
  have := dropWhile_ws_append w [] hw
  simpa using this

theorem dropWhile_ws_append_cases (x w : List Char) :
    (x ++ w).dropWhile Char.isWhitespace =
      if (x.dropWhile Char.isWhitespace).isEmpty then w.dropWhile Char.isWhitespace
      else x.dropWhile Char.isWhitespace ++ w := by
  induction x with
  | nil => simp
  | cons c t ih =>
    by_cases hc : c.isWhitespace
    · simp [List.dropWhile_cons, hc, ih]
    · simp [List.dropWhile_cons, hc]

theorem trimWs_append_ws_right (m w : List Char) (hw : ∀ c ∈ w, c.isWhitespace = true) :
    trimWs (m ++ w) = trimWs m := by
  unfold trimWs
  rw [dropWhile_ws_append_cases m w]
  by_cases hm : (m.dropWhile Char.isWhitespace).isEmpty
  · have hnil : m.dropWhile Char.isWhitespace = [] := by
      simpa [List.isEmpty_iff] using hm
    rw [if_pos hm, dropWhile_ws_all w hw, hnil]
  · rw [if_neg hm, List.reverse_append,
      dropWhile_ws_append w.reverse _ (fun c hc => hw c (by simpa using hc))]

theorem trimWs_sandwich (w₁ w₂ m : List Char)
    (h1 : ∀ c ∈ w₁, c.isWhitespace = true) (h2 : ∀ c ∈ w₂, c.isWhitespace = true) :
    trimWs (w₁ ++ m ++ w₂) = trimWs m := by
  have hleft : trimWs (w₁ ++ (m ++ w₂)) = trimWs (m ++ w₂) := by
    unfold trimWs
    rw [dropWhile_ws_append w₁ (m ++ w₂) h1]
  rw [List.append_assoc, hleft, trimWs_append_ws_right m w₂ h2]

/-- Claim C10: `validateYamlPrompt` accepts exactly the texts containing the
three substrings `project_name:`, `features:` and `tech_stack:`; when valid,
the processed text is the input with a default `ui_style` line appended iff
`ui_style:` is absent; when invalid, no processed text is returned and one
error message is produced per missing checked field. -/
theorem validateYamlPrompt_spec (y : List Char) :
    (validateYamlPrompt y).isValid =
      (containsSub y (chars "project_name:") && containsSub y (chars "features:") &&
       containsSub y (chars "tech_stack:")) ∧
    (validateYamlPrompt y).processed =
      (if containsSub y (chars "project_name:") && containsSub y (chars "features:") &&
          containsSub y (chars "tech_stack:") then
        some (if containsSub y (chars "ui_style:") then y
              else y ++ chars "\nui_style: Clean and modern")
      else none) ∧
    (validateYamlPrompt y).errors.length =
      ((if containsSub y (chars "project_name:") then 0 else 1) +
       (if containsSub y (chars "features:") then 0 else 1) +
       (if containsSub y (chars "tech_stack:") then 0 else 1)) := by
  unfold validateYamlPrompt
  cases h1 : containsSub y (chars "project_name:") <;>
    cases h2 : containsSub y (chars "features:") <;>
      cases h3 : containsSub y (chars "tech_stack:") <;>
        simp [h1, h2, h3]

/-- Claim C4: the stale sweep removes exactly the sessions that are not
`ready` and started strictly before the cutoff `now - maxAge·60000`, returns
the number removed, performs per-session cleanup for each removed id, and
never removes a `ready` session. -/
theorem cleanupStaleGenerations_spec (reg : Registry) (now maxAgeMinutes : Int) :
    (cleanupStaleGenerations reg now maxAgeMinutes).1 =
      reg.filter (fun e => !(decide (e.2.startTime < now - maxAgeMinutes * 60 * 1000) &&
        !(e.2.status == Status.ready))) ∧
    (cleanupStaleGenerations reg now maxAgeMinutes).2.1 =
      (reg.filter (fun e => decide (e.2.startTime < now - maxAgeMinutes * 60 * 1000) &&
        !(e.2.status == Status.ready))).length ∧
    (cleanupStaleGenerations reg now maxAgeMinutes).2.2 =
      (reg.filter (fun e => decide (e.2.startTime < now - maxAgeMinutes * 60 * 1000) &&
        !(e.2.status == Status.ready))).map Prod.fst ∧
    (∀ e, e ∈ reg → e.2.status = Status.ready →
      e ∈ (cleanupStaleGenerations reg now maxAgeMinutes).1) := by
  have key : ∀ l : Registry,
      cleanupStaleGenerations l now maxAgeMinutes =
        (l.filter (fun e => !(staleB now maxAgeMinutes e.2)),
         (l.filter (fun e => staleB now maxAgeMinutes e.2)).length,
         (l.filter (fun e => staleB now maxAgeMinutes e.2)).map Prod.fst) := by
    intro l
    induction l with
    | nil => rfl
    | cons e t ih =>
      rw [cleanupStaleGenerations, ih]
      cases h : staleB now maxAgeMinutes e.2 <;> simp [List.filter, h]
  refine ⟨by rw [key]; rfl, by rw [key]; rfl, by rw [key]; rfl, ?_⟩
  intro e he hready
  rw [key]
  simp only [List.mem_filter]
  refine ⟨he, ?_⟩
  simp [staleB, hready]

/-- Claim C5: `cancelCodeGeneration` returns false for an unknown session id
with no effect; for a registered session it marks it cancelled, invokes the
cancellation handle at most once, performs per-session cleanup, removes it
from the registry and returns true; a second cancel of the same id is a no-op
returning false with no handle invocation and no cleanup. -/
theorem cancelCodeGeneration_spec (reg : Registry) (sid : String) :
    (lookup reg sid = none →
      cancelCodeGeneration reg sid =
        { registry := reg, result := false, cancelCalls := 0, finalSession := none,
          cleanupCalled := false }) ∧
    (∀ s, lookup reg sid = some s →
      (cancelCodeGeneration reg sid).result = true ∧
      (cancelCodeGeneration reg sid).finalSession =
        some { s with status := Status.cancelled } ∧
      (cancelCodeGeneration reg sid).cleanupCalled = true ∧
      (cancelCodeGeneration reg sid).cancelCalls ≤ 1 ∧
      lookup (cancelCodeGeneration reg sid).registry sid = none) ∧
    ((cancelCodeGeneration (cancelCodeGeneration reg sid).registry sid).result = false ∧
     (cancelCodeGeneration (cancelCodeGeneration reg sid).registry sid).cancelCalls = 0 ∧
     (cancelCodeGeneration (cancelCodeGeneration reg sid).registry sid).cleanupCalled = false) := by
  refine ⟨?_, ?_, ?_⟩
  · intro h
    simp [cancelCodeGeneration, h]
  · intro s h
    refine ⟨by simp [cancelCodeGeneration, h], by simp [cancelCodeGeneration, h],
      by simp [cancelCodeGeneration, h], ?_, ?_⟩
    · simp only [cancelCodeGeneration, h]
      cases s.hasCancelFn <;> simp
    · simp [cancelCodeGeneration, h, lookup_delKey_self]
  · cases h : lookup reg sid with
    | none =>
      have hreg : (cancelCodeGeneration reg sid).registry = reg := by
        simp [cancelCodeGeneration, h]
      rw [hreg]
      simp [cancelCodeGeneration, h]
    | some s =>
      have hreg : (cancelCodeGeneration reg sid).registry = delKey reg sid := by
        simp [cancelCodeGeneration, h]
      rw [hreg]
      simp [cancelCodeGeneration, lookup_delKey_self]

/-- Claim C6: a YAML prompt failing pre-validation makes `startCodeGeneration`
finish the session as `error`, emit an error event, perform cleanup and
return a failure result without ever invoking the external collaborator; a
collaborator failure likewise comes back as a failure result (the function is
total: neither failure is thrown past the boundary). -/
theorem startCodeGeneration_failure_spec (reg : Registry) (yaml : List Char)
    (sid : String) (now : Int) (collab : CollabResult) :
    ((validateYamlPrompt yaml).isValid = false →
      (startCodeGeneration reg yaml sid now collab).success = false ∧
      (startCodeGeneration reg yaml sid now collab).collaboratorInvoked = false ∧
      (startCodeGeneration reg yaml sid now collab).finalStatus = some Status.error ∧
      Event.codegenError ∈ (startCodeGeneration reg yaml sid now collab).events ∧
      (startCodeGeneration reg yaml sid now collab).cleanupCalled = true ∧
      (startCodeGeneration reg yaml sid now collab).error.isSome = true) ∧
    (∀ msg, collab = CollabResult.err msg → (validateYamlPrompt yaml).isValid = true →
      (startCodeGeneration reg yaml sid now collab).success = false ∧
      (startCodeGeneration reg yaml sid now collab).error = some msg ∧
      (startCodeGeneration reg yaml sid now collab).finalStatus = some Status.error ∧
      Event.codegenError ∈ (startCodeGeneration reg yaml sid now collab).events) := by
  constructor
  · intro h
    simp [startCodeGeneration, h]
  · intro msg hm hv
    subst hm
    simp [startCodeGeneration, hv]

/-- Witness for the C10 family is not needed (no propositional hypotheses);
witness for C4: a `ready` session older than any cutoff survives the sweep. -/
theorem cleanupStaleGenerations_spec_witness :
    ("a", ({ status := Status.ready, startTime := 0 } : GenerationSession)) ∈
      (cleanupStaleGenerations
        [("a", { status := Status.ready, startTime := 0 }),
         ("b", { status := Status.generating, startTime := 0 })] 10000000 30).1 :=
  (cleanupStaleGenerations_spec
      [("a", { status := Status.ready, startTime := 0 }),
       ("b", { status := Status.generating, startTime := 0 })] 10000000 30).2.2.2
    ("a", { status := Status.ready, startTime := 0 }) (by decide) (by decide)

/-- Witness for C5: cancelling a registered generating session returns true. -/
theorem cancelCodeGeneration_spec_witness :
    (cancelCodeGeneration
      [("s1", { status := Status.generating, startTime := 0, hasCancelFn := true })]
      "s1").result = true :=
  ((cancelCodeGeneration_spec
      [("s1", { status := Status.generating, startTime := 0, hasCancelFn := true })]
      "s1").2.1
    { status := Status.generating, startTime := 0, hasCancelFn := true } (by decide)).1

/-- Witness for C6: a prompt with no checked field fails without invoking the
collaborator. -/
theorem startCodeGeneration_failure_spec_witness :
    (startCodeGeneration [] (chars "nothing here") "s1" 0
      (CollabResult.ok "u" "r")).collaboratorInvoked = false :=
  ((startCodeGeneration_failure_spec [] (chars "nothing here") "s1" 0
      (CollabResult.ok "u" "r")).1 (by decide)).2.1

/-- Claim C9 (amended): a session is removed from the registry on the `error`
exits of `startCodeGeneration` and by `cancelCodeGeneration`, but a session
that completes successfully stays registered with status `ready`. -/
theorem startCodeGeneration_registry_spec (reg : Registry) (yaml : List Char)
    (sid : String) (now : Int) (collab : CollabResult) :
    ((startCodeGeneration reg yaml sid now collab).success = false →
      lookup (startCodeGeneration reg yaml sid now collab).registry sid = none) ∧
    ((startCodeGeneration reg yaml sid now collab).success = true →
      ∃ s, lookup (startCodeGeneration reg yaml sid now collab).registry sid = some s ∧
        s.status = Status.ready) ∧
    (∀ s, lookup reg sid = some s →
      lookup (cancelCodeGeneration reg sid).registry sid = none) := by
  refine ⟨?_, ?_, ?_⟩
  · intro h
    by_cases hv : (validateYamlPrompt yaml).isValid
    · cases collab with
      | ok url repo => simp [startCodeGeneration, hv] at h
      | err msg => simp [startCodeGeneration, hv, lookup_delKey_self]
    · simp [startCodeGeneration, hv, lookup_delKey_self]
  · intro h
    by_cases hv : (validateYamlPrompt yaml).isValid
    · cases collab with
      | ok url repo =>
        refine ⟨{ status := Status.ready, startTime := now, yamlPrompt := some yaml,
                  previewUrl := some url, repoPath := some repo }, ?_, rfl⟩
        simp [startCodeGeneration, hv, lookup_setKey_self]
      | err msg => simp [startCodeGeneration, hv] at h
    · simp [startCodeGeneration, hv] at h
  · intro s h
    simp [cancelCodeGeneration, h, lookup_delKey_self]

/-- Counterexample for C9 as frozen: after a successful generation the
session is still in the registry (with status `ready`), so reaching the
terminal status `ready` does not remove it. -/
theorem claim_C9_refuted :
    (startCodeGeneration [] (chars "project_name: a\nfeatures: f\ntech_stack: t") "s1" 0
      (CollabResult.ok "u" "r")).success = true ∧
    (startCodeGeneration [] (chars "project_name: a\nfeatures: f\ntech_stack: t") "s1" 0
      (CollabResult.ok "u" "r")).finalStatus = some Status.ready ∧
    (lookup (startCodeGeneration [] (chars "project_name: a\nfeatures: f\ntech_stack: t") "s1" 0
      (CollabResult.ok "u" "r")).registry "s1").isSome = true := by
  decide

/-- Witness for the amended C9: cancelling a registered session removes it. -/
theorem startCodeGeneration_registry_spec_witness :
    lookup (cancelCodeGeneration
      [("s2", { status := Status.generating, startTime := 0 })] "s2").registry "s2" = none :=
  (startCodeGeneration_registry_spec
      [("s2", { status := Status.generating, startTime := 0 })] (chars "x") "s2" 0
      (CollabResult.ok "u" "r")).2.2
    { status := Status.generating, startTime := 0 } (by decide)

/-- Claim C1 (amended): a non-null extraction either came from a fenced
pattern whose trimmed capture holds all seven required keys, or from the
fallback scan, which only requires the five keys `project_name`, `features`,
`tech_stack`, `users` and `goal` on the text (it does not require
`project_description` or `ui_style`). -/
theorem extractYamlFromText_keys (t y : List Char)
    (h : extractYamlFromText t = some y) :
    hasAllSevenKeys y = true ∨ hasFallbackKeys t = true := by
  revert h
  unfold extractYamlFromText
  cases hfc : firstComplete
      [ matchBetween t (chars "```yaml\n") (chars "\n```"),
        matchBetween t (chars "```yaml") (chars "```"),
        matchBetween t (chars "```\n") (chars "\n```"),
        matchYamlTail t ] with
  | none => exact fun h => Or.inr (fallbackScan_guard t y h)
  | some z =>
    intro h
    injection h with h
    exact Or.inl (h ▸ firstComplete_keys _ z hfc)

/-- Counterexample for C1 as frozen: a text with neither
`project_description:` nor `ui_style:` is still extracted (non-null) through
the fallback scan. -/
theorem claim_C1_refuted :
    extractYamlFromText
      (chars "project_name: a\nusers: u\ngoal: g\nfeatures: f\ntech_stack: t") =
      some (chars "project_name: a\nusers: u\ngoal: g\nfeatures: f\ntech_stack: t") ∧
    containsSub (chars "project_name: a\nusers: u\ngoal: g\nfeatures: f\ntech_stack: t")
      (chars "project_description:") = false ∧
    containsSub (chars "project_name: a\nusers: u\ngoal: g\nfeatures: f\ntech_stack: t")
      (chars "ui_style:") = false := by
  decide

/-- Witness for the amended C1 at a complete fenced block. -/
theorem extractYamlFromText_keys_witness :
    hasAllSevenKeys (chars "project_name: a\nproject_description: d\nusers: u\ngoal: g\nfeatures: f\ntech_stack: t\nui_style: s") = true ∨
    hasFallbackKeys (chars "```yaml\nproject_name: a\nproject_description: d\nusers: u\ngoal: g\nfeatures: f\ntech_stack: t\nui_style: s\n```") = true :=
  extractYamlFromText_keys
    (chars "```yaml\nproject_name: a\nproject_description: d\nusers: u\ngoal: g\nfeatures: f\ntech_stack: t\nui_style: s\n```")
    (chars "project_name: a\nproject_description: d\nusers: u\ngoal: g\nfeatures: f\ntech_stack: t\nui_style: s")
    (by decide)

/-- Claim C7: `detectYamlApproval` returns true iff the lowercased, trimmed
utterance contains one of the configured approval phrases as a substring; the
result is invariant under letter-case changes and under leading/trailing
whitespace; it is false whenever no configured phrase occurs. -/
theorem detectYamlApproval_spec (m : List Char) :
    (detectYamlApproval m = true ↔
      ∃ p ∈ approvalPhrases, containsSub (trimWs (lowerL m)) p = true) ∧
    (∀ m2, lowerL m2 = lowerL m → detectYamlApproval m2 = detectYamlApproval m) ∧
    (∀ w1 w2, (∀ c ∈ w1, c.isWhitespace = true) → (∀ c ∈ w2, c.isWhitespace = true) →
      detectYamlApproval (w1 ++ m ++ w2) = detectYamlApproval m) ∧
    ((∀ p ∈ approvalPhrases, containsSub (trimWs (lowerL m)) p = false) →
      detectYamlApproval m = false) := by
  have base : ∀ x : List Char, detectYamlApproval x =
      approvalPhrases.any (fun p => containsSub (trimWs (lowerL x)) p) := fun _ => rfl
  refine ⟨?_, ?_, ?_, ?_⟩
  · rw [base]
    simp [List.any_eq_true]
  · intro m2 h
    rw [base, base, h]
  · intro w1 w2 hw1 hw2
    have htr : trimWs (lowerL (w1 ++ m ++ w2)) = trimWs (lowerL m) := by
      rw [lowerL_append, lowerL_append]
      exact trimWs_sandwich _ _ _ (lowerL_allWhitespace w1 hw1) (lowerL_allWhitespace w2 hw2)
    rw [base, base, htr]
  · intro hall
    rw [base]
    by_contra hc
    rw [Bool.not_eq_false, List.any_eq_true] at hc
    obtain ⟨p, hp, hval⟩ := hc
    exact absurd hval (by simp [hall p hp])

/-- Witness for C7: surrounding whitespace does not change the verdict. -/
theorem detectYamlApproval_spec_witness :
    detectYamlApproval (chars " yes ") = detectYamlApproval (chars "yes") :=
  (detectYamlApproval_spec (chars "yes")).2.2.1 (chars " ") (chars " ")
    (by decide) (by decide)

/-- Claim C8 (amended): every successful extraction binds the newly extracted
specification to `lastYamlPrompt` and sets the phase to `prompt_review`; from
`prompt_review` itself this leaves the phase unchanged, but from a later
phase it moves the conversation back to `prompt_review`. -/
theorem handleAssistantMessage_extract_spec (st : ConversationState) (content y : List Char)
    (h : (handleAssistantMessage st content).extracted = some y) :
    (handleAssistantMessage st content).state.lastYamlPrompt = some y ∧
    (handleAssistantMessage st content).state.phase = Phase.prompt_review := by
  by_cases h1 : containsSub content (chars "```yaml")
  · simp [handleAssistantMessage, h1] at h
  · by_cases h3 : optTruthy st.yamlBuffer = true
    · by_cases hcc : containsSub content (chars "```") = true
      · cases hx : extractTruthy (st.yamlBuffer.getD [] ++ (chars "\n" ++ content)) with
        | none => simp [handleAssistantMessage, h1, h3, hcc, hx, List.append_assoc] at h
        | some z =>
          have hz : z = y := by
            simpa [handleAssistantMessage, h1, h3, hcc, hx, List.append_assoc] using h
          subst hz
          simp [handleAssistantMessage, h1, h3, hcc, hx, List.append_assoc]
      · by_cases h4 : isMovingOn content = true
        · cases hx : extractTruthy (st.yamlBuffer.getD [] ++ (chars "\n" ++ content)) with
          | none => simp [handleAssistantMessage, h1, h3, hcc, h4, hx, List.append_assoc] at h
          | some z =>
            have hz : z = y := by
              simpa [handleAssistantMessage, h1, h3, hcc, h4, hx, List.append_assoc] using h
            subst hz
            simp [handleAssistantMessage, h1, h3, hcc, h4, hx, List.append_assoc]
        · simp [handleAssistantMessage, h1, h3, hcc, h4] at h
    · cases hx : extractTruthy content with
      | none => simp [handleAssistantMessage, h1, h3, hx] at h
      | some z =>
        have hz : z = y := by
          simpa [handleAssistantMessage, h1, h3, hx] using h
        subst hz
        simp [handleAssistantMessage, h1, h3, hx]

/-- Counterexample for C8 as frozen: a successful extraction while the phase
is `code_generation` (later than `prompt_review`) changes the phase, setting
it back to `prompt_review`. -/
theorem claim_C8_refuted :
    (handleAssistantMessage
      { phase := Phase.code_generation, lastYamlPrompt := some (chars "old"),
        sessionId := some "sid", yamlBuffer := none }
      (chars "```\nproject_name: a\nproject_description: d\nusers: u\ngoal: g\nfeatures: f\ntech_stack: t\nui_style: s\n```")).extracted.isSome = true ∧
    (handleAssistantMessage
      { phase := Phase.code_generation, lastYamlPrompt := some (chars "old"),
        sessionId := some "sid", yamlBuffer := none }
      (chars "```\nproject_name: a\nproject_description: d\nusers: u\ngoal: g\nfeatures: f\ntech_stack: t\nui_style: s\n```")).state.phase = Phase.prompt_review ∧
    Phase.prompt_review ≠ Phase.code_generation := by
  decide

/-- Witness for the amended C8: in `prompt_review`, a fresh extraction
replaces the bound specification and the phase stays `prompt_review`. -/
theorem handleAssistantMessage_extract_spec_witness :
    (handleAssistantMessage
      { phase := Phase.prompt_review, lastYamlPrompt := some (chars "old") }
      (chars "```\nproject_name: a\nproject_description: d\nusers: u\ngoal: g\nfeatures: f\ntech_stack: t\nui_style: s\n```")).state.lastYamlPrompt =
      some (chars "project_name: a\nproject_description: d\nusers: u\ngoal: g\nfeatures: f\ntech_stack: t\nui_style: s") ∧
    (handleAssistantMessage
      { phase := Phase.prompt_review, lastYamlPrompt := some (chars "old") }
      (chars "```\nproject_name: a\nproject_description: d\nusers: u\ngoal: g\nfeatures: f\ntech_stack: t\nui_style: s\n```")).state.phase = Phase.prompt_review :=
  handleAssistantMessage_extract_spec _ _ _ (by decide)

/-- Claim C3 (amended): when the split falls on a line boundary — first
fragment holding the open marker, second fragment holding a closing fence but
not the open marker — the Stream Buffer reconstructs exactly the first
fragment, the joining newline and the second fragment (the original text with
its boundary newline), feeds that whole text to the Extraction Engine, and
the bound specification is exactly what extraction yields on the total text.
At an arbitrary character boundary the reconstruction inserts an extra
newline and the results can differ (see the counterexample). -/
theorem streamBuffer_line_split_spec (st : ConversationState) (a b : List Char)
    (h1 : containsSub a (chars "```yaml") = true)
    (h2 : containsSub b (chars "```yaml") = false)
    (h3 : containsSub b (chars "```") = true) :
    (handleAssistantMessage (handleAssistantMessage st a).state b).fedBlock =
      some (a ++ (chars "\n" ++ b)) ∧
    (handleAssistantMessage (handleAssistantMessage st a).state b).state.lastYamlPrompt =
      (match extractTruthy (a ++ (chars "\n" ++ b)) with
        | some y => some y
        | none => st.lastYamlPrompt) := by
  have ha : a.isEmpty = false := by
    cases a with
    | nil => exact absurd h1 (by decide)
    | cons c t => rfl
  have hstep1 : (handleAssistantMessage st a).state = { st with yamlBuffer := some a } := by
    simp [handleAssistantMessage, h1]
  rw [hstep1]
  cases hx : extractTruthy (a ++ (chars "\n" ++ b)) with
  | none =>
    constructor <;>
      simp [handleAssistantMessage, h2, h3, optTruthy, ha, hx, List.append_assoc]
  | some y =>
    constructor <;>
      simp [handleAssistantMessage, h2, h3, optTruthy, ha, hx, List.append_assoc]

/-- Counterexample for C3 as frozen: the same total text split at a character
boundary inside the `tech_stack:` key reconstructs with an extra newline (not
identical to the single fragment) and extraction yields nothing, while the
single-fragment text extracts successfully. -/
theorem claim_C3_refuted :
    chars "```yaml\nproject_name: a\nproject_description: d\nusers: u\ngoal: g\nfeatures: f\ntech_st" ++
      chars "ack: t\nui_style: s\n```" =
      chars "```yaml\nproject_name: a\nproject_description: d\nusers: u\ngoal: g\nfeatures: f\ntech_stack: t\nui_style: s\n```" ∧
    (handleAssistantMessage
      (handleAssistantMessage { phase := Phase.ideation }
        (chars "```yaml\nproject_name: a\nproject_description: d\nusers: u\ngoal: g\nfeatures: f\ntech_st")).state
      (chars "ack: t\nui_style: s\n```")).fedBlock =
      some (chars "```yaml\nproject_name: a\nproject_description: d\nusers: u\ngoal: g\nfeatures: f\ntech_st" ++
        (chars "\n" ++ chars "ack: t\nui_style: s\n```")) ∧
    (chars "```yaml\nproject_name: a\nproject_description: d\nusers: u\ngoal: g\nfeatures: f\ntech_st" ++
      (chars "\n" ++ chars "ack: t\nui_style: s\n```")) ≠
      chars "```yaml\nproject_name: a\nproject_description: d\nusers: u\ngoal: g\nfeatures: f\ntech_stack: t\nui_style: s\n```" ∧
    (handleAssistantMessage
      (handleAssistantMessage { phase := Phase.ideation }
        (chars "```yaml\nproject_name: a\nproject_description: d\nusers: u\ngoal: g\nfeatures: f\ntech_st")).state
      (chars "ack: t\nui_style: s\n```")).state.lastYamlPrompt = none ∧
    (extractYamlFromText
      (chars "```yaml\nproject_name: a\nproject_description: d\nusers: u\ngoal: g\nfeatures: f\ntech_stack: t\nui_style: s\n```")).isSome = true := by
  decide

/-- Witness for the amended C3 at a line-boundary split of a complete block. -/
theorem streamBuffer_line_split_spec_witness :
    (handleAssistantMessage
      (handleAssistantMessage { phase := Phase.ideation }
        (chars "```yaml\nproject_name: a\nproject_description: d\nusers: u")).state
      (chars "goal: g\nfeatures: f\ntech_stack: t\nui_style: s\n```")).fedBlock =
      some (chars "```yaml\nproject_name: a\nproject_description: d\nusers: u" ++
        (chars "\n" ++ chars "goal: g\nfeatures: f\ntech_stack: t\nui_style: s\n```")) ∧
    (handleAssistantMessage
      (handleAssistantMessage { phase := Phase.ideation }
        (chars "```yaml\nproject_name: a\nproject_description: d\nusers: u")).state
      (chars "goal: g\nfeatures: f\ntech_stack: t\nui_style: s\n```")).state.lastYamlPrompt =
      (match extractTruthy (chars "```yaml\nproject_name: a\nproject_description: d\nusers: u" ++
          (chars "\n" ++ chars "goal: g\nfeatures: f\ntech_stack: t\nui_style: s\n```")) with
        | some y => some y
        | none => none) :=
  streamBuffer_line_split_spec { phase := Phase.ideation }
    (chars "```yaml\nproject_name: a\nproject_description: d\nusers: u")
    (chars "goal: g\nfeatures: f\ntech_stack: t\nui_style: s\n```")
    (by decide) (by decide) (by decide)

/-- Claim C2: under the reachability invariant, an approval utterance with no
bound specification changes nothing (no phase change, no session started) and
surfaces the corrective system message; and the final phase is
`code_generation` only if it already was, or a truthy specification was bound
and the freshly minted session id got stored in the conversation state. -/
theorem approvalGate_spec (st : ConversationState) (content : List Char) (freshId : String)
    (reg : Registry) (now : Int) (collab : CollabResult) :
    (ConvInv st → st.lastYamlPrompt = none → detectYamlApproval content = true →
      (handleUserMessage st content freshId reg now collab).state = st ∧
      (handleUserMessage st content freshId reg now collab).started = false ∧
      BrowserMsg.correctiveText ∈ (handleUserMessage st content freshId reg now collab).sent) ∧
    ((handleUserMessage st content freshId reg now collab).state.phase = Phase.code_generation →
      st.phase = Phase.code_generation ∨
      (optTruthy st.lastYamlPrompt = true ∧
       (handleUserMessage st content freshId reg now collab).state.sessionId = some freshId ∧
       (handleUserMessage st content freshId reg now collab).started = true)) := by
  constructor
  · intro hinv hnone happ
    have hfalse : optTruthy st.lastYamlPrompt = false := by rw [hnone]; rfl
    have hphase : st.phase = Phase.ideation ∨ st.phase = Phase.prompt_review := by
      cases hp : st.phase with
      | ideation => exact Or.inl rfl
      | prompt_review => exact Or.inr rfl
      | transitioning => exact absurd (hinv (Or.inl hp)) (by simp [hfalse])
      | code_generation => exact absurd (hinv (Or.inr hp)) (by simp [hfalse])
    rcases hphase with hp | hp <;>
      simp [handleUserMessage, hp, hfalse, happ]
  · intro h
    by_cases hc1 : (st.phase == Phase.prompt_review && optTruthy st.lastYamlPrompt &&
        detectYamlApproval content) = true
    · by_cases hs : (startCodeGeneration reg (st.lastYamlPrompt.getD []) freshId now
          collab).success = true
      · right
        have h1 : optTruthy st.lastYamlPrompt = true := by
          have hc := hc1
          simp only [Bool.and_eq_true] at hc
          exact hc.1.2
        refine ⟨h1, ?_, ?_⟩ <;> simp [handleUserMessage, hc1, hs]
      · exfalso
        have hide : (handleUserMessage st content freshId reg now collab).state.phase =
            Phase.ideation := by
          simp [handleUserMessage, hc1, hs]
        rw [hide] at h
        exact absurd h (by decide)
    · have hstate : (handleUserMessage st content freshId reg now collab).state = st := by
        by_cases hc2 : ((st.phase == Phase.prompt_review || st.phase == Phase.ideation) &&
            detectYamlApproval content) = true
        · simp [handleUserMessage, hc1, hc2]
        · simp [handleUserMessage, hc1, hc2]
      rw [hstate] at h
      exact Or.inl h

/-- Witness for C2: approval in `ideation` with no captured specification
only yields the corrective message. -/
theorem approvalGate_spec_witness :
    (handleUserMessage { phase := Phase.ideation } (chars "yes") "sid" [] 0
      (CollabResult.ok "u" "r")).started = false :=
  ((approvalGate_spec { phase := Phase.ideation } (chars "yes") "sid" [] 0
      (CollabResult.ok "u" "r")).1 (by simp [ConvInv]) rfl (by decide)).2.1

theorem extractTruthy_not_empty (t y : List Char) (h : extractTruthy t = some y) :
    y.isEmpty = false := by
  unfold extractTruthy at h
  cases hx : extractYamlFromText t with
  | none => rw [hx] at h; exact absurd h (by simp)
  | some z =>
    rw [hx] at h
    by_cases hz : z.isEmpty = true
    · simp [hz] at h
    · have hzy : z = y := by simpa [hz] using h
      subst hzy
      simpa using hz

theorem assistantStep_phase_cases (st : ConversationState) (content : List Char) :
    ((handleAssistantMessage st content).state.phase = Phase.prompt_review ∧
     optTruthy (handleAssistantMessage st content).state.lastYamlPrompt = true) ∨
    ((handleAssistantMessage st content).state.phase = st.phase ∧
     (handleAssistantMessage st content).state.lastYamlPrompt = st.lastYamlPrompt) := by
  by_cases h1 : containsSub content (chars "```yaml")
  · right
    constructor <;> simp [handleAssistantMessage, h1]
  · by_cases h3 : optTruthy st.yamlBuffer = true
    · by_cases hcc : containsSub content (chars "```") = true
      · cases hx : extractTruthy (st.yamlBuffer.getD [] ++ (chars "\n" ++ content)) with
        | none =>
          right
          constructor <;> simp [handleAssistantMessage, h1, h3, hcc, hx, List.append_assoc]
        | some z =>
          left
          have hz := extractTruthy_not_empty _ _ hx
          have hstate : (handleAssistantMessage st content).state =
              { st with lastYamlPrompt := some z, phase := Phase.prompt_review,
                        yamlBuffer := none } := by
            simp [handleAssistantMessage, h1, h3, hcc, hx, List.append_assoc]
          rw [hstate]
          exact ⟨rfl, by simp [optTruthy, hz]⟩
      · by_cases h4 : isMovingOn content = true
        · cases hx : extractTruthy (st.yamlBuffer.getD [] ++ (chars "\n" ++ content)) with
          | none =>
            right
            constructor <;>
              simp [handleAssistantMessage, h1, h3, hcc, h4, hx, List.append_assoc]
          | some z =>
            left
            have hz := extractTruthy_not_empty _ _ hx
            have hstate : (handleAssistantMessage st content).state =
                { st with lastYamlPrompt := some z, phase := Phase.prompt_review,
                          yamlBuffer := none } := by
              simp [handleAssistantMessage, h1, h3, hcc, h4, hx, List.append_assoc]
            rw [hstate]
            exact ⟨rfl, by simp [optTruthy, hz]⟩
        · right
          constructor <;> simp [handleAssistantMessage, h1, h3, hcc, h4]
    · cases hx : extractTruthy content with
      | none =>
        right
        constructor <;> simp [handleAssistantMessage, h1, h3, hx]
      | some z =>
        left
        have hz := extractTruthy_not_empty _ _ hx
        have hstate : (handleAssistantMessage st content).state =
            { st with lastYamlPrompt := some z, phase := Phase.prompt_review } := by
          simp [handleAssistantMessage, h1, h3, hx]
        rw [hstate]
        exact ⟨rfl, by simp [optTruthy, hz]⟩

/-- The assistant branch of the message handler preserves the reachability
invariant used in the approval-gate theorem. -/
theorem handleAssistantMessage_preserves_ConvInv (st : ConversationState)
    (content : List Char) (h : ConvInv st) :
    ConvInv (handleAssistantMessage st content).state := by
  rcases assistantStep_phase_cases st content with ⟨hp, ht⟩ | ⟨hp, hl⟩
  · intro hph
    rcases hph with hq | hq <;> rw [hp] at hq <;> exact absurd hq (by decide)
  · intro hph
    rw [hl]
    refine h ?_
    rcases hph with hq | hq
    · exact Or.inl (by rw [← hp]; exact hq)
    · exact Or.inr (by rw [← hp]; exact hq)

/-- The user branch of the message handler preserves the reachability
invariant used in the approval-gate theorem. -/
theorem handleUserMessage_preserves_ConvInv (st : ConversationState) (content : List Char)
    (freshId : String) (reg : Registry) (now : Int) (collab : CollabResult)
    (h : ConvInv st) :
    ConvInv (handleUserMessage st content freshId reg now collab).state := by
  by_cases hc1 : (st.phase == Phase.prompt_review && optTruthy st.lastYamlPrompt &&
      detectYamlApproval content) = true
  · have h1 : optTruthy st.lastYamlPrompt = true := by
      simp only [Bool.and_eq_true] at hc1
      exact hc1.1.2
    by_cases hs : (startCodeGeneration reg (st.lastYamlPrompt.getD []) freshId now
        collab).success = true
    · intro _
      have hl : (handleUserMessage st content freshId reg now collab).state.lastYamlPrompt =
          st.lastYamlPrompt := by
        simp [handleUserMessage, hc1, hs]
      rw [hl]
      exact h1
    · intro hph
      exfalso
      have hid : (handleUserMessage st content freshId reg now collab).state.phase =
          Phase.ideation := by
        simp [handleUserMessage, hc1, hs]
      rcases hph with hq | hq <;> rw [hid] at hq <;> exact absurd hq (by decide)
  · have hstate : (handleUserMessage st content freshId reg now collab).state = st := by
      by_cases hc2 : ((st.phase == Phase.prompt_review || st.phase == Phase.ideation) &&
          detectYamlApproval content) = true
      · simp [handleUserMessage, hc1, hc2]
      · simp [handleUserMessage, hc1, hc2]
    rw [hstate]
    exact h
